import Mathlib

/-!
Shallow embedding of the backport orchestration engine
(sqren/backport-cli) and proofs about it.

The JavaScript/TypeScript sources are translated into pure Lean
definitions.  Strings are modelled by Lean `String` (a packed
`List Char`); JavaScript `slice`, `join`, first-occurrence `replace`
and the `/\(#(\d+)\)/` regular expression are modelled by the explicit
helpers below.  Promise chains become an explicit state-passing monad
`StM` with an `Except` result; each external call (git subprocess,
GitHub API, interactive prompt) records an event in the state and takes
its outcome from an oracle environment, so a run of the orchestrator is
a pure function of (inputs, oracle, initial interaction script).
-/

/-- JavaScript `s.slice(0, n)`: the first `n` characters of `s`. -/
def jsSlice (s : String) (n : Nat) : String :=
  ⟨s.data.take n⟩

/-- JavaScript `Array.prototype.join(sep)` for an array of strings. -/
def joinSep (sep : String) : List String → String
  | [] => ""
  | [x] => x
  | x :: y :: ys => x ++ sep ++ joinSep sep (y :: ys)

/-- Character-list core of first-occurrence replacement: replace the
first occurrence of `search` by `repl`. -/
def replaceFirstAux (search repl : List Char) : List Char → List Char
  | [] => if search.isPrefixOf ([] : List Char) then repl else []
  | c :: cs =>
    if search.isPrefixOf (c :: cs) then repl ++ (c :: cs).drop search.length
    else c :: replaceFirstAux search repl cs

/-- JavaScript `s.replace(search, repl)` with a string pattern:
replaces only the first occurrence. -/
def jsReplaceFirst (s search repl : String) : String :=
  ⟨replaceFirstAux search.data repl.data s.data⟩

/-- Decimal value of a digit run, as computed by `parseInt(ds, 10)`. -/
def digitsToNat (ds : List Char) : Nat :=
  ds.foldl (fun n c => n * 10 + (c.toNat - '0'.toNat)) 0

/-- Split off the maximal leading run of decimal digits. -/
def takeDigits : List Char → (List Char × List Char)
  | [] => ([], [])
  | c :: cs =>
    if c.isDigit then
      let (ds, rest) := takeDigits cs
      (c :: ds, rest)
    else ([], c :: cs)

/-- Attempt to match the regular expression `\(#(\d+)\)` at the head of
the character list, returning the captured number. -/
def matchPullRef (cs : List Char) : Option Nat :=
  match cs with
  | '(' :: '#' :: rest =>
    match takeDigits rest with
    | ([], _) => none
    | (ds, ')' :: _) => some (digitsToNat ds)
    | (_, _) => none
  | _ => none

/-- First match of `\(#(\d+)\)` anywhere in the character list, as
JavaScript `String.prototype.match` finds it. -/
def findPullRef : List Char → Option Nat
  | [] => none
  | c :: cs =>
    match matchPullRef (c :: cs) with
    | some n => some n
    | none => findPullRef cs

/-!
## Commit data model and deterministic naming
(src/steps: `getReference`, `getBackportBranchName`,
`getPullRequestPayload`)
-/

/-- A commit as the orchestrator sees it: revision id (`sha`), the raw
message, and the associated pull-request number when one is known. -/
structure Commit where
  sha : String
  message : String
  pullRequest : Option Nat
deriving DecidableEq, Repr

/-- The sha-derived reference: first 7 characters of the revision id,
with a `commit-` marker in the short form. -/
def commitShaRef (commit : Commit) (short : Bool) : String :=
  let shortCommit := jsSlice commit.sha 7
  if short then "commit-" ++ shortCommit else shortCommit

/-- `getReference(commit, { short })`.  The JavaScript guard
`if (commit.pullRequest)` is falsy both for an absent number and for
the number 0, which the embedding mirrors. -/
def getReference (commit : Commit) (short : Bool) : String :=
  match commit.pullRequest with
  | some pr =>
    if pr == 0 then commitShaRef commit short
    else if short then "pr-" ++ toString pr else "#" ++ toString pr
  | none => commitShaRef commit short

/-- `getReferenceLong(commit)`. -/
def getReferenceLong (commit : Commit) : String :=
  getReference commit false

/-- `getReferenceShort(commit)`. -/
def getReferenceShort (commit : Commit) : String :=
  getReference commit true

/-- `getBackportBranchName(version, commits)`: short references joined
by `_`, sliced to 200 characters, prefixed by `backport/<version>/`. -/
def getBackportBranchName (version : String) (commits : List Commit) : String :=
  let refValues := jsSlice (joinSep "_" (commits.map getReferenceShort)) 200
  "backport/" ++ version ++ "/" ++ refValues

/-- Payload sent to the create-pull-request API call. -/
structure PullRequestPayload where
  title : String
  body : String
  head : String
  base : String
deriving DecidableEq, Repr

/-- `getPullRequestPayload(version, commits, username)`: title from the
` | `-joined messages sliced to 200 characters, body listing each
commit with its long reference re-appended after stripping a duplicate
`(<ref>)` token, head `<username>:<branchName>`, base the version. -/
def getPullRequestPayload (version : String) (commits : List Commit)
    (username : String) : PullRequestPayload :=
  let backportBranchName := getBackportBranchName version commits
  let commitRefs := joinSep "\n" (commits.map (fun commit =>
    let ref := getReferenceLong commit
    " - " ++ jsReplaceFirst commit.message ("(" ++ ref ++ ")") "" ++ " (" ++ ref ++ ")"))
  let commitMessages := jsSlice (joinSep " | " (commits.map Commit.message)) 200
  { title := "[" ++ version ++ "] " ++ commitMessages
    body := "Backports the following commits to " ++ version ++ ":\n" ++ commitRefs
    head := username ++ ":" ++ backportBranchName
    base := version }

/-!
Claim-side (specification) formulation of the branch name, written
from the words of the specification: short refs are `pr-<number>` for
a commit with an associated pull request and `commit-<first 7 chars>`
otherwise, joined by `_` and truncated to 200 characters.
-/

/-- Short reference exactly as the specification words it. -/
def specShortRef (c : Commit) : String :=
  match c.pullRequest with
  | some n => "pr-" ++ toString n
  | none => "commit-" ++ jsSlice c.sha 7

/-- Backport branch name exactly as the specification words it. -/
def specBranchName (target : String) (commits : List Commit) : String :=
  "backport/" ++ target ++ "/" ++ jsSlice (joinSep "_" (commits.map specShortRef)) 200

/-!
## Commit resolution: associated pull request acceptance
(src/services/github/v4/fetchCommitsByAuthor.ts)
-/

/-- The fields of an associated-pull-request GraphQL node that the
acceptance check reads: number, repository name, repository owner
login, and the optional merge commit oid. -/
structure PullRequestNode where
  number : Nat
  repositoryName : String
  repositoryOwner : String
  mergeCommit : Option String
deriving DecidableEq, Repr

/-- `getPullNumberFromMessage(firstMessageLine)`: first match of
`\(#(\d+)\)` in the message, parsed with `parseInt`. -/
def getPullNumberFromMessage (message : String) : Option Nat :=
  findPullRef message.data

/-- `isSourcePullRequest({ pullRequestNode, options, sha })`: the
candidate node is accepted only if its repository name and owner match
the configured repository and its merge commit oid equals the commit
sha (an absent node or absent merge commit fails the chain). -/
def isSourcePullRequest (pullRequestNode : Option PullRequestNode)
    (repoOwner repoName sha : String) : Bool :=
  match pullRequestNode with
  | none => false
  | some pr =>
    pr.repositoryName == repoName && pr.repositoryOwner == repoOwner &&
      (match pr.mergeCommit with
       | some oid => oid == sha
       | none => false)

/-- Pull-number selection of the per-commit mapping inside
`fetchCommitsByAuthor`: when `isSourcePullRequest` rejects the node
the commit is treated as PR-less and the number is parsed from the
message, otherwise the node's number is used. -/
def resolveCommitPullNumber (repoOwner repoName : String)
    (pullRequestNode : Option PullRequestNode) (sha message : String) : Option Nat :=
  match pullRequestNode with
  | some pr =>
    if isSourcePullRequest (some pr) repoOwner repoName sha then some pr.number
    else getPullNumberFromMessage message
  | none => getPullNumberFromMessage message

/-- Claim-side reading of the fallback: the number of a `(#NNN)`
pattern standing at the very end (trailing position) of the message. -/
def specTrailingPullNumber (message : String) : Option Nat :=
  match message.data.reverse with
  | ')' :: rest =>
    match takeDigits rest with
    | ([], _) => none
    | (dsRev, '#' :: '(' :: _) => some (digitsToNat dsRev.reverse)
    | (_, _) => none
  | _ => none

/-!
## Zero-commits failure of `fetchCommitsByAuthor`
-/

/-- A commit as resolved by `fetchCommitsByAuthor` (the fields the
claims need). -/
structure CommitSelected where
  sourceBranch : String
  sha : String
  originalMessage : String
  pullNumber : Option Nat
deriving DecidableEq, Repr

/-- The `pathText` clause of the zero-commits error. -/
def zeroCommitsPathText (path : Option String) : String :=
  match path with
  | some p => " touching files in path: \"" ++ p ++ "\""
  | none => ""

/-- The `errorText` of the zero-commits `HandledError` in
`fetchCommitsByAuthor`, chosen by `options.all`. -/
def zeroCommitsErrorText (all : Bool) (author : String) (path : Option String) : String :=
  let pathText := zeroCommitsPathText path
  if all then "There are no commits in this repository" ++ pathText
  else
    "There are no commits by \"" ++ author ++ "\" in this repository" ++ pathText ++
      ". Try with `--all` for commits by all users or `--author=<username>` for commits from a specific user"

/-- Terminal emptiness check of `fetchCommitsByAuthor`: an empty
resolution fails with the zero-commits `HandledError`, otherwise the
commits are returned. -/
def fetchCommitsGate (all : Bool) (author : String) (path : Option String)
    (commits : List CommitSelected) : Except String (List CommitSelected) :=
  if commits.isEmpty then Except.error (zeroCommitsErrorText all author path)
  else Except.ok commits

/-- Substring containment: `t` occurs contiguously inside `s`. -/
def strContains (s t : String) : Prop :=
  t.data <:+: s.data

instance (s t : String) : Decidable (strContains s t) :=
  List.decidableInfix t.data s.data

/-!
## Branch setup: `createFeatureBranch` error mapping
(services/git.ts)
-/

/-- The fields of a failed `exec` call that the git service inspects:
the failed command, its exit code, and the captured stderr (absent for
non-subprocess failures). -/
structure ExecError where
  cmd : String
  exitCode : Nat
  stderr : Option String
deriving DecidableEq, Repr

/-- Result of `createFeatureBranch` when the underlying
reset/fetch/checkout command chain fails: either a `HandledError`
naming the invalid branch, or the original error rethrown. -/
inductive CreateBranchResult where
  | ok
  | handledError (message : String)
  | rethrown (e : ExecError)
deriving DecidableEq, Repr

/-- Character-list core of JavaScript `s.includes(t)`. -/
def includesAux (target : List Char) : List Char → Bool
  | [] => target.isPrefixOf ([] : List Char)
  | c :: cs => target.isPrefixOf (c :: cs) || includesAux target cs

/-- Bool form of JavaScript `s.includes(t)`. -/
def strIncludes (s t : String) : Bool :=
  includesAux t.data s.data

/-- JavaScript `s.toLowerCase()` (ASCII range, which covers the git
error signatures involved). -/
def jsToLower (s : String) : String :=
  ⟨s.data.map Char.toLower⟩

/-- `createFeatureBranch(options, baseBranch, featureBranch)` catch
clause: `isBranchInvalid` lowercases stderr and then looks for the
literals `couldn't find remote ref` and `Invalid refspec` (the second
one spelled with a capital I, exactly as in the source); on a match it
throws a `HandledError` naming the base branch, otherwise it rethrows
the original error. -/
def createFeatureBranch (baseBranch : String) (outcome : Option ExecError) :
    CreateBranchResult :=
  match outcome with
  | none => CreateBranchResult.ok
  | some e =>
    let isBranchInvalid :=
      (match e.stderr with
       | some s => strIncludes (jsToLower s) "couldn't find remote ref"
       | none => false) ||
      (match e.stderr with
       | some s => strIncludes (jsToLower s) "Invalid refspec"
       | none => false)
    if isBranchInvalid then
      CreateBranchResult.handledError
        ("The branch \"" ++ baseBranch ++ "\" is invalid or doesn't exist")
    else CreateBranchResult.rethrown e

/-!
## The orchestrator as a state machine
(steps: `doBackportVersions`, `doBackportVersion`,
`cherrypickAndConfirm`, `confirmResolvedRecursive`, `sequentially`,
`withPullRequest`)

Each promise chain is embedded as a state-passing computation
`StM σ ε α = σ → Except ε α × σ`; `mbind` is `.then`, `mcatch` is
`.catch`.  External calls record an event and read their outcome from
an oracle environment, and the interactive answers are pre-recorded
scripts consumed in order.
-/

/-- A JavaScript error as the orchestrator inspects it: its message
and, for subprocess errors, the failed command (`e.cmd`). -/
structure JsError where
  message : String
  cmd : String
deriving DecidableEq, Repr

/-- State-passing computation with JavaScript-style rejection. -/
def StM (σ ε α : Type) : Type :=
  σ → Except ε α × σ

/-- Promise resolution. -/
def mpure {σ ε α : Type} (a : α) : StM σ ε α :=
  fun s => (Except.ok a, s)

/-- Promise `.then`. -/
def mbind {σ ε α β : Type} (m : StM σ ε α) (f : α → StM σ ε β) : StM σ ε β :=
  fun s =>
    match m s with
    | (Except.ok a, s') => f a s'
    | (Except.error e, s') => (Except.error e, s')

/-- Promise rejection. -/
def mthrow {σ ε α : Type} (e : ε) : StM σ ε α :=
  fun s => (Except.error e, s)

/-- Promise `.catch(handler)`. -/
def mcatch {σ ε α : Type} (m : StM σ ε α) (handler : ε → StM σ ε α) : StM σ ε α :=
  fun s =>
    match m s with
    | (Except.ok a, s') => (Except.ok a, s')
    | (Except.error e, s') => handler e s'

/-- `.catch` that swallows the error and records the outcome (the
shape of `.catch(handleErrors)`, which reports and never rethrows). -/
def mattempt {σ ε α : Type} (m : StM σ ε α) : StM σ ε (Except ε α) :=
  fun s =>
    match m s with
    | (Except.ok a, s') => (Except.ok (Except.ok a), s')
    | (Except.error e, s') => (Except.ok (Except.error e), s')

/-- Observable external calls issued during a run. -/
inductive GitEvent where
  | resetAndPull
  | checkoutBranch (version branchName : String)
  | cherrypickCall (sha : String)
  | promptConfirm
  | pushBranch (username branchName : String)
  | createPullRequest (owner repoName : String) (payload : PullRequestPayload)
  | addLabels (owner repoName : String) (number : Nat) (labels : List String)
deriving DecidableEq, Repr

/-- Mutable run state: the pre-recorded interactive answers still to be
consumed (conflict-resolved confirmations and dirty-index checks) and
the trace of issued calls. -/
structure RunState where
  promptAnswers : List Bool
  dirtyAnswers : List Bool
  events : List GitEvent
deriving DecidableEq, Repr

/-- Outcomes of the external git/GitHub collaborators, per call site:
`none` means success, `some e` a rejection with `e`. -/
structure GitEnv where
  resetResult : Option JsError
  checkoutResult : String → Option JsError
  cherrypickResult : String → Option JsError
  pushResult : Option JsError
  createdPrNumber : Nat
  pullRequestFor : String → Option Nat

/-- The monad the orchestrator runs in. -/
def M (α : Type) : Type :=
  StM RunState JsError α

/-- Record an event. -/
def emitEvent (ev : GitEvent) : M Unit :=
  fun s => (Except.ok (), { s with events := s.events ++ [ev] })

/-- Record an event, then resolve or reject with the oracle outcome. -/
def stepOutcome (ev : GitEvent) (outcome : Option JsError) : M Unit :=
  mbind (emitEvent ev) (fun _ =>
    match outcome with
    | none => mpure ()
    | some e => mthrow e)

/-- `resetAndPullMaster(owner, repoName)`. -/
def resetAndPullMaster (env : GitEnv) : M Unit :=
  stepOutcome GitEvent.resetAndPull env.resetResult

/-- `createAndCheckoutBranch(owner, repoName, version, branchName)`. -/
def createAndCheckoutBranch (env : GitEnv) (version branchName : String) : M Unit :=
  stepOutcome (GitEvent.checkoutBranch version branchName) (env.checkoutResult version)

/-- `cherrypick(owner, repoName, sha)`. -/
def cherrypick (env : GitEnv) (sha : String) : M Unit :=
  stepOutcome (GitEvent.cherrypickCall sha) (env.cherrypickResult sha)

/-- `push(owner, repoName, username, branchName)`. -/
def pushBranch (env : GitEnv) (username branchName : String) : M Unit :=
  stepOutcome (GitEvent.pushBranch username branchName) env.pushResult

/-- `github.createPullRequest(owner, repoName, payload)`: records the
call and resolves with the number of the created pull request. -/
def createPullRequest (env : GitEnv) (owner repoName : String)
    (payload : PullRequestPayload) : M Nat :=
  mbind (emitEvent (GitEvent.createPullRequest owner repoName payload)) (fun _ =>
    mpure env.createdPrNumber)

/-- `github.addLabels(owner, repoName, number, labels)`. -/
def addLabels (owner repoName : String) (number : Nat) (labels : List String) : M Unit :=
  emitEvent (GitEvent.addLabels owner repoName number labels)

/-- `isIndexDirty(owner, repoName)`: consumes the next scripted dirty
answer (an exhausted script reads as a clean index). -/
def isIndexDirty : M Bool :=
  fun s =>
    match s.dirtyAnswers with
    | [] => (Except.ok false, s)
    | d :: rest => (Except.ok d, { s with dirtyAnswers := rest })

/-- The "Aborted" rejection of a declined confirmation prompt. -/
def abortedError : JsError :=
  { message := "Aborted", cmd := "" }

/-- Modelled from the spec: `prompts.confirmConflictResolved()` is the
interactive prompt collaborator (not under src); it records the prompt,
resolves when the scripted user answer is `true`, and rejects with the
"Aborted" domain error when the user declines (an exhausted script
reads as a decline). -/
def confirmConflictResolved : M Unit :=
  fun s =>
    match s.promptAnswers with
    | [] => (Except.error abortedError, { s with events := s.events ++ [GitEvent.promptConfirm] })
    | a :: rest =>
      if a then
        (Except.ok (),
         { s with promptAnswers := rest, events := s.events ++ [GitEvent.promptConfirm] })
      else
        (Except.error abortedError,
         { s with promptAnswers := rest, events := s.events ++ [GitEvent.promptConfirm] })

/-- Recursion core of `confirmResolvedRecursive`: prompt, check the
index, and repeat while it is dirty.  Terminates because every
iteration consumes one scripted prompt answer. -/
def confirmLoop : List Bool → List Bool → List GitEvent →
    Except JsError Unit × RunState
  | [], dirty, evs =>
    (Except.error abortedError, ⟨[], dirty, evs ++ [GitEvent.promptConfirm]⟩)
  | a :: rest, dirty, evs =>
    if a then
      match dirty with
      | [] => (Except.ok (), ⟨rest, [], evs ++ [GitEvent.promptConfirm]⟩)
      | d :: drest =>
        if d then confirmLoop rest drest (evs ++ [GitEvent.promptConfirm])
        else (Except.ok (), ⟨rest, drest, evs ++ [GitEvent.promptConfirm]⟩)
    else (Except.error abortedError, ⟨rest, dirty, evs ++ [GitEvent.promptConfirm]⟩)

/-- `confirmResolvedRecursive(owner, repoName)`. -/
def confirmResolvedRecursive : M Unit :=
  fun s => confirmLoop s.promptAnswers s.dirtyAnswers s.events

/-- `isCherrypickConflict(e)`: `e.cmd.includes('git cherry-pick')`. -/
def isCherrypickConflict (e : JsError) : Bool :=
  strIncludes e.cmd "git cherry-pick"

/-- `cherrypickAndConfirm(owner, repoName, sha)`: on a conflict-shaped
rejection enter the confirmation loop, otherwise rethrow. -/
def cherrypickAndConfirm (env : GitEnv) (sha : String) : M Unit :=
  mcatch (cherrypick env sha) (fun e =>
    if isCherrypickConflict e then confirmResolvedRecursive
    else mthrow e)

/-- `sequentially(items, handler)`: the reduce-based promise chain,
one item at a time, stopping at the first rejection. -/
def sequentially {α : Type} (handler : α → M Unit) : List α → M Unit
  | [] => mpure ()
  | x :: rest => mbind (handler x) (fun _ => sequentially handler rest)

/-- `doBackportVersion({owner, repoName, commits, version, username,
labels})`: branch setup, sequential cherry-picks with conflict
handling, push, pull-request creation, and label application when
labels are configured; resolves with the created PR number. -/
def doBackportVersion (env : GitEnv) (owner repoName : String)
    (commits : List Commit) (version username : String)
    (labels : List String) : M Nat :=
  let backportBranchName := getBackportBranchName version commits
  mbind (resetAndPullMaster env) (fun _ =>
  mbind (createAndCheckoutBranch env version backportBranchName) (fun _ =>
  mbind (sequentially (fun c => cherrypickAndConfirm env c.sha) commits) (fun _ =>
  mbind (pushBranch env username backportBranchName) (fun _ =>
  mbind (createPullRequest env owner repoName
          (getPullRequestPayload version commits username)) (fun number =>
    if labels.length > 0 then
      mbind (addLabels owner repoName number labels) (fun _ => mpure number)
    else mpure number)))))

/-- `withPullRequest(owner, repoName, commits)`: read-only enrichment
of each commit with its pull request looked up by sha. -/
def withPullRequest (env : GitEnv) (commits : List Commit) : List Commit :=
  commits.map (fun c => { c with pullRequest := env.pullRequestFor c.sha })

/-- `doBackportVersions({owner, repoName, commits, versions, username,
labels})`: one task per version, strictly sequentially; each task's
rejection is caught at the task boundary by `.catch(handleErrors)`
(which reports and never rethrows), so the loop always proceeds to the
next version.  The swallowed per-task outcomes are collected so the
run's aggregate report is observable. -/
def doBackportVersions (env : GitEnv) (owner repoName : String)
    (commits : List Commit) (username : String) (labels : List String) :
    List String → M (List (Except JsError Nat))
  | [] => mpure []
  | version :: rest =>
    mbind (mattempt (doBackportVersion env owner repoName
            (withPullRequest env commits) version username labels)) (fun r =>
    mbind (doBackportVersions env owner repoName commits username labels rest) (fun rs =>
    mpure (r :: rs)))

/-- Recognises pull-request-creation calls in a trace. -/
def isCreatePullRequestEvent : GitEvent → Bool
  | GitEvent.createPullRequest _ _ _ => true
  | _ => false

/-- Recognises label-application calls in a trace. -/
def isAddLabelsEvent : GitEvent → Bool
  | GitEvent.addLabels _ _ _ _ => true
  | _ => false

/-- Recognises push calls in a trace. -/
def isPushEvent : GitEvent → Bool
  | GitEvent.pushBranch _ _ => true
  | _ => false

/-- Recognises confirmation prompts in a trace. -/
def isPromptEvent : GitEvent → Bool
  | GitEvent.promptConfirm => true
  | _ => false

/-- The options the remote-name resolution reads (services/git.ts):
whether the user works against their own fork, their username, and
the upstream repository owner. -/
structure BackportOptions where
  fork : Bool
  username : String
  repoOwner : String
deriving DecidableEq, Repr

/-- `getRemoteName(options)`: the caller's username when working
against a fork, otherwise the upstream repository owner. -/
def getRemoteName (options : BackportOptions) : String :=
  if options.fork then options.username else options.repoOwner

/-!
## Repository setup (`maybeSetupRepo`, steps/maybeSetupRepo.ts)
combined with the git-service remote helpers (services/git.ts).
-/

/-- Observable calls of the setup flow. -/
inductive SetupEvent where
  | makeDirCall
  | cloneRepoCall
  | deleteRemoteCall (remoteName : String)
  | addRemoteCall (remoteName : String)
  | deleteRepoCall
deriving DecidableEq, Repr

/-- On-disk state the setup flow reads and mutates: whether the local
clone directory exists (`repoExists`), plus the call trace. -/
structure SetupState where
  repoOnDisk : Bool
  events : List SetupEvent
deriving DecidableEq, Repr

/-- Oracle outcomes for the setup collaborators. -/
structure SetupEnv where
  makeDirResult : Option ExecError
  cloneResult : Option ExecError
  clonePartialLeftover : Bool
  deleteRemoteResult : String → Option ExecError

/-- The monad the setup flow runs in. -/
def MS (α : Type) : Type :=
  StM SetupState ExecError α

/-- `repoExists(options)`: reads whether the clone directory exists. -/
def repoExists : MS Bool :=
  fun s => (Except.ok s.repoOnDisk, s)

/-- `makeDir(getRepoOwnerPath(options))`. -/
def makeDirOp (env : SetupEnv) : MS Unit :=
  fun s =>
    let s' := { s with events := s.events ++ [SetupEvent.makeDirCall] }
    match env.makeDirResult with
    | none => (Except.ok (), s')
    | some e => (Except.error e, s')

/-- `cloneRepo(options, progressCallback)`: on success the clone
directory exists afterwards; on failure the subprocess may or may not
have left a partially-created directory behind
(`clonePartialLeftover`). -/
def cloneRepoOp (env : SetupEnv) : MS Unit :=
  fun s =>
    match env.cloneResult with
    | none =>
      (Except.ok (), { repoOnDisk := true,
                       events := s.events ++ [SetupEvent.cloneRepoCall] })
    | some e =>
      (Except.error e, { repoOnDisk := env.clonePartialLeftover,
                         events := s.events ++ [SetupEvent.cloneRepoCall] })

/-- `deleteRemote(options, remoteName)`: swallows `git remote rm`
failures with exit code 128 (remote did not exist), rethrows any
other error. -/
def deleteRemoteOp (env : SetupEnv) (remoteName : String) : MS Unit :=
  fun s =>
    let s' := { s with events := s.events ++ [SetupEvent.deleteRemoteCall remoteName] }
    match env.deleteRemoteResult remoteName with
    | none => (Except.ok (), s')
    | some e => if e.exitCode == 128 then (Except.ok (), s') else (Except.error e, s')

/-- `addRemote(options, remoteName)`: swallows every error (the
remote may already exist). -/
def addRemoteOp (remoteName : String) : MS Unit :=
  fun s =>
    (Except.ok (), { s with events := s.events ++ [SetupEvent.addRemoteCall remoteName] })

/-- `deleteRepo(options)`: `del(repoPath)` removes the clone
directory. -/
def deleteRepoOp : MS Unit :=
  fun s =>
    (Except.ok (), { repoOnDisk := false,
                     events := s.events ++ [SetupEvent.deleteRepoCall] })

/-- `maybeSetupRepo(options)`: clone only when the directory does not
already exist; on any failure inside the clone block, delete the
partially-created clone directory and rethrow; then refresh the
remotes with the latest access token. -/
def maybeSetupRepo (env : SetupEnv) (username repoOwner : String) : MS Unit :=
  mbind repoExists (fun isAlreadyCloned =>
  mbind (if isAlreadyCloned then mpure () else
           mcatch (mbind (makeDirOp env) (fun _ =>
                   mbind (cloneRepoOp env) (fun _ =>
                     deleteRemoteOp env "origin")))
             (fun e => mbind deleteRepoOp (fun _ => mthrow e)))
    (fun _ =>
  mbind (deleteRemoteOp env username) (fun _ =>
  mbind (addRemoteOp username) (fun _ =>
  if username ≠ repoOwner then
    mbind (deleteRemoteOp env repoOwner) (fun _ => addRemoteOp repoOwner)
  else mpure ()))))

/-- Oracle on which every external call succeeds. -/
def allOkEnv : GitEnv :=
  { resetResult := none
    checkoutResult := fun _ => none
    cherrypickResult := fun _ => none
    pushResult := none
    createdPrNumber := 1337
    pullRequestFor := fun _ => some 1000 }

/-- Oracle on which cherry-picking `mySha` rejects with a
conflict-shaped subprocess error. -/
def conflictEnv : GitEnv :=
  { resetResult := none
    checkoutResult := fun _ => none
    cherrypickResult := fun sha =>
      if sha == "mySha" then
        some ⟨"as", "git fetch elastic master:master --force && git cherry-pick mySha"⟩
      else none
    pushResult := none
    createdPrNumber := 1337
    pullRequestFor := fun _ => none }

/-- Oracle on which branch setup fails for version `5.x` only. -/
def failFirstEnv : GitEnv :=
  { resetResult := none
    checkoutResult := fun version =>
      if version == "5.x" then
        some ⟨"Command failed", "git reset --hard && git clean -d --force"⟩
      else none
    cherrypickResult := fun _ => none
    pushResult := none
    createdPrNumber := 1337
    pullRequestFor := fun _ => some 1000 }

/-- Oracle on which the clone fails and leaves a partial directory. -/
def cloneFailEnv : SetupEnv :=
  { makeDirResult := none
    cloneResult := some ⟨"git clone --progress", 128, some "fatal: unable to access"⟩
    clonePartialLeftover := true
    deleteRemoteResult := fun _ => none }

theorem jsSlice_length_le (s : String) (n : Nat) : (jsSlice s n).length ≤ n := by
  show (s.data.take n).length ≤ n
  rw [List.length_take]
  exact Nat.min_le_left _ _

/-- C1: for every target branch and every ordered non-empty list of
commits, the derived backport branch name equals
`backport/<target>/<refs>` where `<refs>` is the commits' short
references (`pr-<number>` when a pull request is associated, otherwise
`commit-<first 7 characters of the sha>`) joined by `_` and truncated
to at most 200 characters; the function is pure, so identical inputs
always yield the identical name. -/
theorem getBackportBranchName_matches_spec (version : String)
    (commits : List Commit) (hne : commits ≠ [])
    (hpos : ∀ c ∈ commits, c.pullRequest ≠ some 0) :
    getBackportBranchName version commits = specBranchName version commits
    ∧ (jsSlice (joinSep "_" (commits.map getReferenceShort)) 200).length ≤ 200
    ∧ (∀ version' commits', version' = version → commits' = commits →
        getBackportBranchName version' commits' = getBackportBranchName version commits) := by
  refine ⟨?_, jsSlice_length_le _ _, ?_⟩
  · have hmap : commits.map getReferenceShort = commits.map specShortRef := by
      apply List.map_congr_left
      intro c hc
      have hc0 := hpos c hc
      unfold getReferenceShort getReference specShortRef commitShaRef
      cases hpr : c.pullRequest with
      | none => simp
      | some n =>
        have hn : ¬ n = 0 := by
          intro h
          exact hc0 (by rw [hpr, h])
        simp [hn]
    unfold getBackportBranchName specBranchName
    rw [hmap]
  · intro v' c' hv hc
    rw [hv, hc]

theorem getBackportBranchName_matches_spec_witness :
    getBackportBranchName "6.x"
        [⟨"mySha", "myCommitMessage (#1000)", some 1000⟩,
         ⟨"mySha2", "myOtherCommitMessage (#2000)", some 2000⟩] =
      specBranchName "6.x"
        [⟨"mySha", "myCommitMessage (#1000)", some 1000⟩,
         ⟨"mySha2", "myOtherCommitMessage (#2000)", some 2000⟩]
    ∧ getBackportBranchName "6.x"
        [⟨"mySha", "myCommitMessage (#1000)", some 1000⟩,
         ⟨"mySha2", "myOtherCommitMessage (#2000)", some 2000⟩] =
      "backport/6.x/pr-1000_pr-2000" :=
  ⟨(getBackportBranchName_matches_spec "6.x" _ (by decide) (by decide)).1,
   by decide⟩

/-- C2 (counterexample): the fallback number is parsed from the FIRST
`(#NNN)` pattern, not from the trailing one.  For the revert-style
message `Revert "x (#1)" (#2)` the code yields 1 while the trailing
pattern holds 2. -/
theorem resolveCommitPullNumber_not_trailing :
    resolveCommitPullNumber "elastic" "kibana" none "mySha" "Revert \"x (#1)\" (#2)" = some 1
    ∧ specTrailingPullNumber "Revert \"x (#1)\" (#2)" = some 2
    ∧ resolveCommitPullNumber "elastic" "kibana" none "mySha" "Revert \"x (#1)\" (#2)" ≠
        specTrailingPullNumber "Revert \"x (#1)\" (#2)" := by
  refine ⟨by decide, by decide, by decide⟩

/-- C2 (amended): a candidate associated pull request is accepted only
when its merge-commit id equals the commit's revision id AND its
repository owner AND repository name both match the current
repository; when any of the three checks fails the commit is treated
as PR-less and its pull-request number is instead parsed from the
first `(#NNN)` pattern in the commit message, if such a pattern is
present. -/
theorem isSourcePullRequest_acceptance (repoOwner repoName sha message : String)
    (pullRequestNode : Option PullRequestNode) :
    (isSourcePullRequest pullRequestNode repoOwner repoName sha = true ↔
      ∃ pr, pullRequestNode = some pr ∧ pr.repositoryName = repoName ∧
        pr.repositoryOwner = repoOwner ∧ pr.mergeCommit = some sha)
    ∧ (isSourcePullRequest pullRequestNode repoOwner repoName sha = false →
        resolveCommitPullNumber repoOwner repoName pullRequestNode sha message =
          getPullNumberFromMessage message)
    ∧ (∀ pr, pullRequestNode = some pr →
        isSourcePullRequest pullRequestNode repoOwner repoName sha = true →
        resolveCommitPullNumber repoOwner repoName pullRequestNode sha message =
          some pr.number) := by
  refine ⟨?_, ?_, ?_⟩
  · cases pullRequestNode with
    | none => simp [isSourcePullRequest]
    | some pr =>
      cases hmc : pr.mergeCommit with
      | none => simp [isSourcePullRequest, hmc]
      | some oid => simp [isSourcePullRequest, hmc, and_assoc]
  · intro h
    cases pullRequestNode with
    | none => rfl
    | some pr => simp [resolveCommitPullNumber, h]
  · intro pr hpr h
    subst hpr
    simp [resolveCommitPullNumber, h]

theorem isSourcePullRequest_acceptance_witness :
    isSourcePullRequest (some ⟨123, "kibana", "elastic", some "mySha"⟩)
        "elastic" "kibana" "mySha" = true
    ∧ resolveCommitPullNumber "elastic" "kibana" none "mySha" "fix stuff (#7)" = some 7 := by
  constructor
  · exact (isSourcePullRequest_acceptance "elastic" "kibana" "mySha" "m"
      (some ⟨123, "kibana", "elastic", some "mySha"⟩)).1.mpr ⟨_, rfl, rfl, rfl, rfl⟩
  · have h := (isSourcePullRequest_acceptance "elastic" "kibana" "mySha"
      "fix stuff (#7)" none).2.1 rfl
    rw [h]
    decide

theorem strContains_of_suffix (x t : String) : strContains (x ++ t) t := by
  show t.data <:+: (x ++ t).data
  rw [String.data_append]
  exact (List.suffix_append x.data t.data).isInfix

theorem strContains_appL (u s t : String) (h : strContains s t) :
    strContains (u ++ s) t := by
  show t.data <:+: (u ++ s).data
  rw [String.data_append]
  exact h.trans (List.suffix_append u.data s.data).isInfix

theorem strContains_appR (s t u : String) (h : strContains s t) :
    strContains (s ++ u) t := by
  show t.data <:+: (s ++ u).data
  rw [String.data_append]
  exact h.trans (List.prefix_append s.data u.data).isInfix

/-- C8: whenever commit resolution yields zero commits, the operation
fails with a domain error whose message depends on the filter mode:
with an author filter set, the message names that author and suggests
`--all` and `--author`; with "all" requested, the message states there
are no commits in the repository and omits that suggestion; in both
modes the message mentions the path filter when one was given. -/
theorem fetchCommits_zero_commits_error (all : Bool) (author : String)
    (path : Option String) (commits : List CommitSelected)
    (hempty : commits = []) :
    fetchCommitsGate all author path commits =
      Except.error (zeroCommitsErrorText all author path)
    ∧ (all = false →
        strContains (zeroCommitsErrorText all author path) author
        ∧ strContains (zeroCommitsErrorText all author path) "--all"
        ∧ strContains (zeroCommitsErrorText all author path) "--author=<username>")
    ∧ (all = true →
        zeroCommitsErrorText all author path =
          "There are no commits in this repository" ++ zeroCommitsPathText path
        ∧ (path = none →
            ¬ strContains (zeroCommitsErrorText all author path) "--all"))
    ∧ (∀ p, path = some p →
        strContains (zeroCommitsErrorText all author path)
          (" touching files in path: \"" ++ p ++ "\"")) := by
  subst hempty
  refine ⟨rfl, ?_, ?_, ?_⟩
  · intro hall
    subst hall
    refine ⟨?_, ?_, ?_⟩
    · show strContains
        ("There are no commits by \"" ++ author ++ "\" in this repository" ++
          zeroCommitsPathText path ++
          ". Try with `--all` for commits by all users or `--author=<username>` for commits from a specific user")
        author
      exact strContains_appR _ _ _ (strContains_appR _ _ _ (strContains_appR _ _ _
        (strContains_of_suffix "There are no commits by \"" author)))
    · show strContains
        ("There are no commits by \"" ++ author ++ "\" in this repository" ++
          zeroCommitsPathText path ++
          ". Try with `--all` for commits by all users or `--author=<username>` for commits from a specific user")
        "--all"
      exact strContains_appL _ _ _ (by decide)
    · show strContains
        ("There are no commits by \"" ++ author ++ "\" in this repository" ++
          zeroCommitsPathText path ++
          ". Try with `--all` for commits by all users or `--author=<username>` for commits from a specific user")
        "--author=<username>"
      exact strContains_appL _ _ _ (by decide)
  · intro hall
    subst hall
    refine ⟨rfl, ?_⟩
    intro hpath
    subst hpath
    show ¬ strContains ("There are no commits in this repository" ++ "") "--all"
    decide
  · intro p hpath
    subst hpath
    cases all with
    | true =>
      show strContains
        ("There are no commits in this repository" ++
          (" touching files in path: \"" ++ p ++ "\""))
        (" touching files in path: \"" ++ p ++ "\"")
      exact strContains_of_suffix _ _
    | false =>
      show strContains
        ("There are no commits by \"" ++ author ++ "\" in this repository" ++
          (" touching files in path: \"" ++ p ++ "\"") ++
          ". Try with `--all` for commits by all users or `--author=<username>` for commits from a specific user")
        (" touching files in path: \"" ++ p ++ "\"")
      exact strContains_appR _ _ _ (strContains_of_suffix _ _)

theorem fetchCommits_zero_commits_error_witness :
    fetchCommitsGate false "sqren" (some "x-pack") [] =
      Except.error (zeroCommitsErrorText false "sqren" (some "x-pack"))
    ∧ strContains (zeroCommitsErrorText false "sqren" (some "x-pack")) "sqren"
    ∧ strContains (zeroCommitsErrorText false "sqren" (some "x-pack")) "--all" :=
  ⟨(fetchCommits_zero_commits_error false "sqren" (some "x-pack") [] rfl).1,
   ((fetchCommits_zero_commits_error false "sqren" (some "x-pack") [] rfl).2.1 rfl).1,
   ((fetchCommits_zero_commits_error false "sqren" (some "x-pack") [] rfl).2.1 rfl).2.1⟩

/-- C9: a missing-remote-ref failure is indeed mapped to a domain
error naming the branch, but an invalid-refspec failure is NOT: the
code lowercases stderr and then searches for the capitalised literal
`Invalid refspec`, which can never occur in a lowercased string, so
such failures are rethrown unchanged — contradicting the claim (and
the evident intent of the check). -/
theorem createFeatureBranch_invalid_refspec_not_handled :
    createFeatureBranch "6.x"
        (some ⟨"git fetch elastic 6.x", 128, some "fatal: Couldn't find remote ref 6.x"⟩) =
      CreateBranchResult.handledError "The branch \"6.x\" is invalid or doesn't exist"
    ∧ createFeatureBranch "6.x"
        (some ⟨"git checkout -B backport", 128, some "fatal: Invalid refspec '6.x'"⟩) =
      CreateBranchResult.rethrown
        ⟨"git checkout -B backport", 128, some "fatal: Invalid refspec '6.x'"⟩
    ∧ strIncludes (jsToLower "fatal: Invalid refspec '6.x'") "invalid refspec" = true := by
  refine ⟨by decide, by decide, by decide⟩

theorem stepOutcome_none (ev : GitEvent) (s : RunState) :
    stepOutcome ev none s =
      (Except.ok (), ⟨s.promptAnswers, s.dirtyAnswers, s.events ++ [ev]⟩) := by
  simp [stepOutcome, mbind, emitEvent, mpure]

theorem stepOutcome_some (ev : GitEvent) (e : JsError) (s : RunState) :
    stepOutcome ev (some e) s =
      (Except.error e, ⟨s.promptAnswers, s.dirtyAnswers, s.events ++ [ev]⟩) := by
  simp [stepOutcome, mbind, emitEvent, mthrow]

theorem cherrypickAndConfirm_ok (env : GitEnv) (sha : String) (s : RunState)
    (hc : env.cherrypickResult sha = none) :
    cherrypickAndConfirm env sha s =
      (Except.ok (), ⟨s.promptAnswers, s.dirtyAnswers,
        s.events ++ [GitEvent.cherrypickCall sha]⟩) := by
  simp [cherrypickAndConfirm, mcatch, cherrypick, hc, stepOutcome_none]

theorem sequentially_cherrypick_ok (env : GitEnv) (commits : List Commit) :
    ∀ (s : RunState), (∀ c ∈ commits, env.cherrypickResult c.sha = none) →
    sequentially (fun c => cherrypickAndConfirm env c.sha) commits s =
      (Except.ok (),
       ⟨s.promptAnswers, s.dirtyAnswers,
        s.events ++ commits.map (fun c => GitEvent.cherrypickCall c.sha)⟩) := by
  induction commits with
  | nil => intro s h; simp [sequentially, mpure]
  | cons c rest ih =>
    intro s h
    have hc : env.cherrypickResult c.sha = none := h c (by simp)
    have step := cherrypickAndConfirm_ok env c.sha s hc
    have tail := ih ⟨s.promptAnswers, s.dirtyAnswers,
      s.events ++ [GitEvent.cherrypickCall c.sha]⟩ (fun x hx => h x (by simp [hx]))
    simp [sequentially, mbind, step, tail, List.append_assoc]

theorem sequentially_append_ok {α : Type} (handler : α → M Unit) (l₁ : List α) :
    ∀ (l₂ : List α) (s s₁ : RunState),
    sequentially handler l₁ s = (Except.ok (), s₁) →
    sequentially handler (l₁ ++ l₂) s = sequentially handler l₂ s₁ := by
  induction l₁ with
  | nil =>
    intro l₂ s s₁ h
    simp [sequentially, mpure] at h
    simp [h]
  | cons x rest ih =>
    intro l₂ s s₁ h
    simp only [sequentially, mbind] at h ⊢
    cases hx : handler x s with
    | mk r s' =>
      cases r with
      | ok a =>
        rw [hx] at h
        simp only [List.cons_append]
        exact ih l₂ s' s₁ h
      | error e =>
        rw [hx] at h
        simp at h

theorem cherrypickAndConfirm_conflict (env : GitEnv) (sha : String) (s : RunState)
    (e : JsError) (hc : env.cherrypickResult sha = some e)
    (hconf : isCherrypickConflict e = true) :
    cherrypickAndConfirm env sha s =
      confirmLoop s.promptAnswers s.dirtyAnswers
        (s.events ++ [GitEvent.cherrypickCall sha]) := by
  simp [cherrypickAndConfirm, mcatch, cherrypick, hc, stepOutcome_some, hconf,
    confirmResolvedRecursive]

theorem cherrypickAndConfirm_fatal (env : GitEnv) (sha : String) (s : RunState)
    (e : JsError) (hc : env.cherrypickResult sha = some e)
    (hconf : isCherrypickConflict e = false) :
    cherrypickAndConfirm env sha s =
      (Except.error e, ⟨s.promptAnswers, s.dirtyAnswers,
        s.events ++ [GitEvent.cherrypickCall sha]⟩) := by
  simp [cherrypickAndConfirm, mcatch, cherrypick, hc, stepOutcome_some, hconf, mthrow]

theorem confirmLoop_decline (ptail dirty : List Bool) (evs : List GitEvent) :
    confirmLoop (false :: ptail) dirty evs =
      (Except.error abortedError, ⟨ptail, dirty, evs ++ [GitEvent.promptConfirm]⟩) := by
  simp [confirmLoop]

theorem confirmLoop_step_true (prest drest : List Bool) (evs : List GitEvent) :
    confirmLoop (true :: prest) (true :: drest) evs =
      confirmLoop prest drest (evs ++ [GitEvent.promptConfirm]) := by
  simp only [confirmLoop, if_true]

theorem confirmLoop_resolve (N : Nat) :
    ∀ (ptail dtail : List Bool) (evs : List GitEvent),
    confirmLoop (List.replicate (N + 1) true ++ ptail)
        (List.replicate N true ++ false :: dtail) evs =
      (Except.ok (), ⟨ptail, dtail,
        evs ++ List.replicate (N + 1) GitEvent.promptConfirm⟩) := by
  induction N with
  | zero =>
    intro ptail dtail evs
    simp [confirmLoop]
  | succ n ih =>
    intro ptail dtail evs
    rw [show List.replicate (n + 1 + 1) true ++ ptail =
          true :: (List.replicate (n + 1) true ++ ptail) by
        simp [List.replicate_succ]]
    rw [show List.replicate (n + 1) true ++ false :: dtail =
          true :: (List.replicate n true ++ false :: dtail) by
        simp [List.replicate_succ]]
    rw [confirmLoop_step_true, ih]
    simp [List.append_assoc, List.replicate_succ]

theorem doBackportVersion_ok (env : GitEnv) (owner repoName : String)
    (commits : List Commit) (version username : String) (labels : List String)
    (s : RunState)
    (hreset : env.resetResult = none)
    (hcheckout : env.checkoutResult version = none)
    (hcherry : ∀ c ∈ commits, env.cherrypickResult c.sha = none)
    (hpush : env.pushResult = none) :
    doBackportVersion env owner repoName commits version username labels s =
      (Except.ok env.createdPrNumber,
       ⟨s.promptAnswers, s.dirtyAnswers,
        s.events ++
          ([GitEvent.resetAndPull,
            GitEvent.checkoutBranch version (getBackportBranchName version commits)] ++
           commits.map (fun c => GitEvent.cherrypickCall c.sha) ++
           [GitEvent.pushBranch username (getBackportBranchName version commits),
            GitEvent.createPullRequest owner repoName
              (getPullRequestPayload version commits username)] ++
           (if labels.length > 0 then
              [GitEvent.addLabels owner repoName env.createdPrNumber labels]
            else []))⟩) := by
  have hseq := sequentially_cherrypick_ok env commits
    ⟨s.promptAnswers, s.dirtyAnswers,
     s.events ++ [GitEvent.resetAndPull,
       GitEvent.checkoutBranch version (getBackportBranchName version commits)]⟩ hcherry
  by_cases hl : labels.length > 0
  · simp [doBackportVersion, mbind, resetAndPullMaster, createAndCheckoutBranch,
      pushBranch, createPullRequest, addLabels, emitEvent, mpure, hreset, hcheckout,
      hpush, stepOutcome_none, hseq, hl, List.append_assoc]
  · simp [doBackportVersion, mbind, resetAndPullMaster, createAndCheckoutBranch,
      pushBranch, createPullRequest, addLabels, emitEvent, mpure, hreset, hcheckout,
      hpush, stepOutcome_none, hseq, hl, List.append_assoc]

theorem doBackportVersion_checkout_fail (env : GitEnv) (owner repoName : String)
    (commits : List Commit) (version username : String) (labels : List String)
    (s : RunState) (e : JsError)
    (hreset : env.resetResult = none)
    (hcheckout : env.checkoutResult version = some e) :
    doBackportVersion env owner repoName commits version username labels s =
      (Except.error e,
       ⟨s.promptAnswers, s.dirtyAnswers,
        s.events ++
          [GitEvent.resetAndPull,
           GitEvent.checkoutBranch version (getBackportBranchName version commits)]⟩) := by
  simp [doBackportVersion, mbind, resetAndPullMaster, createAndCheckoutBranch,
    hreset, hcheckout, stepOutcome_none, stepOutcome_some, List.append_assoc]

theorem doBackportVersion_conflict_abort (env : GitEnv) (owner repoName : String)
    (pre post : List Commit) (c : Commit) (version username : String)
    (labels : List String) (s : RunState) (e : JsError) (ptail : List Bool)
    (hreset : env.resetResult = none)
    (hcheckout : env.checkoutResult version = none)
    (hpre : ∀ x ∈ pre, env.cherrypickResult x.sha = none)
    (hc : env.cherrypickResult c.sha = some e)
    (hconf : isCherrypickConflict e = true)
    (hprompts : s.promptAnswers = false :: ptail) :
    doBackportVersion env owner repoName (pre ++ c :: post) version username labels s =
      (Except.error abortedError,
       ⟨ptail, s.dirtyAnswers,
        s.events ++
          ([GitEvent.resetAndPull,
            GitEvent.checkoutBranch version
              (getBackportBranchName version (pre ++ c :: post))] ++
           pre.map (fun x => GitEvent.cherrypickCall x.sha) ++
           [GitEvent.cherrypickCall c.sha, GitEvent.promptConfirm])⟩) := by
  obtain ⟨sp, sd, sev⟩ := s
  have hp : sp = false :: ptail := hprompts
  subst hp
  have hseqpre := sequentially_cherrypick_ok env pre
    ⟨false :: ptail, sd,
     sev ++ [GitEvent.resetAndPull,
       GitEvent.checkoutBranch version
         (getBackportBranchName version (pre ++ c :: post))]⟩ hpre
  have happend := sequentially_append_ok
    (fun x => cherrypickAndConfirm env x.sha) pre (c :: post) _ _ hseqpre
  have hcc := cherrypickAndConfirm_conflict env c.sha
    ⟨false :: ptail, sd,
     sev ++ GitEvent.resetAndPull ::
       GitEvent.checkoutBranch version
         (getBackportBranchName version (pre ++ c :: post)) ::
       pre.map (fun x => GitEvent.cherrypickCall x.sha)⟩ e hc hconf
  simp [doBackportVersion, mbind, resetAndPullMaster, createAndCheckoutBranch,
    hreset, hcheckout, stepOutcome_none, happend, sequentially, hcc,
    confirmLoop_decline, List.append_assoc]

theorem doBackportVersion_conflict_resolved (env : GitEnv) (owner repoName : String)
    (pre post : List Commit) (c : Commit) (version username : String)
    (labels : List String) (s : RunState) (e : JsError) (N : Nat)
    (ptail dtail : List Bool)
    (hreset : env.resetResult = none)
    (hcheckout : env.checkoutResult version = none)
    (hpre : ∀ x ∈ pre, env.cherrypickResult x.sha = none)
    (hc : env.cherrypickResult c.sha = some e)
    (hconf : isCherrypickConflict e = true)
    (hpost : ∀ x ∈ post, env.cherrypickResult x.sha = none)
    (hpush : env.pushResult = none)
    (hprompts : s.promptAnswers = List.replicate (N + 1) true ++ ptail)
    (hdirty : s.dirtyAnswers = List.replicate N true ++ false :: dtail) :
    doBackportVersion env owner repoName (pre ++ c :: post) version username labels s =
      (Except.ok env.createdPrNumber,
       ⟨ptail, dtail,
        s.events ++
          ([GitEvent.resetAndPull,
            GitEvent.checkoutBranch version
              (getBackportBranchName version (pre ++ c :: post))] ++
           pre.map (fun x => GitEvent.cherrypickCall x.sha) ++
           [GitEvent.cherrypickCall c.sha] ++
           List.replicate (N + 1) GitEvent.promptConfirm ++
           post.map (fun x => GitEvent.cherrypickCall x.sha) ++
           [GitEvent.pushBranch username
              (getBackportBranchName version (pre ++ c :: post)),
            GitEvent.createPullRequest owner repoName
              (getPullRequestPayload version (pre ++ c :: post) username)] ++
           (if labels.length > 0 then
              [GitEvent.addLabels owner repoName env.createdPrNumber labels]
            else []))⟩) := by
  obtain ⟨sp, sd, sev⟩ := s
  have hp : sp = List.replicate (N + 1) true ++ ptail := hprompts
  have hd : sd = List.replicate N true ++ false :: dtail := hdirty
  subst hp hd
  have hseqpre := sequentially_cherrypick_ok env pre
    ⟨List.replicate (N + 1) true ++ ptail, List.replicate N true ++ false :: dtail,
     sev ++ [GitEvent.resetAndPull,
       GitEvent.checkoutBranch version
         (getBackportBranchName version (pre ++ c :: post))]⟩ hpre
  have happend := sequentially_append_ok
    (fun x => cherrypickAndConfirm env x.sha) pre (c :: post) _ _ hseqpre
  have hcc := cherrypickAndConfirm_conflict env c.sha
    ⟨List.replicate (N + 1) true ++ ptail, List.replicate N true ++ false :: dtail,
     sev ++ GitEvent.resetAndPull ::
       GitEvent.checkoutBranch version
         (getBackportBranchName version (pre ++ c :: post)) ::
       pre.map (fun x => GitEvent.cherrypickCall x.sha)⟩ e hc hconf
  have hseqpost := sequentially_cherrypick_ok env post
    ⟨ptail, dtail,
     sev ++ GitEvent.resetAndPull ::
       GitEvent.checkoutBranch version
         (getBackportBranchName version (pre ++ c :: post)) ::
       (pre.map (fun x => GitEvent.cherrypickCall x.sha) ++
        GitEvent.cherrypickCall c.sha ::
          List.replicate (N + 1) GitEvent.promptConfirm)⟩ hpost
  by_cases hl : labels.length > 0
  · simp [doBackportVersion, mbind, resetAndPullMaster, createAndCheckoutBranch,
      pushBranch, createPullRequest, addLabels, emitEvent, mpure, hreset, hcheckout,
      hpush, stepOutcome_none, happend, sequentially, hcc, confirmLoop_resolve N,
      hseqpost, hl, List.append_assoc]
  · simp [doBackportVersion, mbind, resetAndPullMaster, createAndCheckoutBranch,
      pushBranch, createPullRequest, addLabels, emitEvent, mpure, hreset, hcheckout,
      hpush, stepOutcome_none, happend, sequentially, hcc, confirmLoop_resolve N,
      hseqpost, hl, List.append_assoc]

theorem countP_cherrypick_map (p : GitEvent → Bool)
    (h : ∀ sha, p (GitEvent.cherrypickCall sha) = false) (l : List Commit) :
    List.countP p (l.map (fun c => GitEvent.cherrypickCall c.sha)) = 0 := by
  rw [List.countP_eq_zero]
  intro a ha
  obtain ⟨c, _, rfl⟩ := List.mem_map.mp ha
  simp [h]

theorem countP_replicate_zero (p : GitEvent → Bool) (a : GitEvent) (n : Nat)
    (h : p a = false) : List.countP p (List.replicate n a) = 0 := by
  rw [List.countP_eq_zero]
  intro x hx
  rw [List.eq_of_mem_replicate hx]
  simp [h]

theorem countP_replicate_one (p : GitEvent → Bool) (a : GitEvent) (n : Nat)
    (h : p a = true) : List.countP p (List.replicate n a) = n := by
  induction n with
  | zero => simp
  | succ m ih => simp [List.replicate_succ, List.countP_cons, ih, h]

/-- C3: with two target branches where the first task fails fatally
(here: invalid branch during branch setup) and the second succeeds,
the tasks run strictly sequentially (the embedding executes them in
order in one chain), the first task's rejection is caught at the task
boundary, and the second task still runs to completion including its
pull-request creation; the run does not stop early. -/
theorem doBackportVersions_partial_failure (env : GitEnv) (owner repoName : String)
    (commits : List Commit) (username : String) (labels : List String)
    (v1 v2 : String) (e : JsError) (s : RunState)
    (hreset : env.resetResult = none)
    (hv1 : env.checkoutResult v1 = some e)
    (hv2 : env.checkoutResult v2 = none)
    (hcherry : ∀ c ∈ withPullRequest env commits, env.cherrypickResult c.sha = none)
    (hpush : env.pushResult = none)
    (hev : s.events = []) :
    ∃ sf : RunState,
      doBackportVersions env owner repoName commits username labels [v1, v2] s =
        (Except.ok [Except.error e, Except.ok env.createdPrNumber], sf)
      ∧ List.countP isCreatePullRequestEvent sf.events = 1
      ∧ GitEvent.createPullRequest owner repoName
          (getPullRequestPayload v2 (withPullRequest env commits) username) ∈ sf.events := by
  obtain ⟨sp, sd, sev⟩ := s
  have he : sev = [] := hev
  subst he
  have h1 := doBackportVersion_checkout_fail env owner repoName
    (withPullRequest env commits) v1 username labels ⟨sp, sd, []⟩ e hreset hv1
  have h2 := doBackportVersion_ok env owner repoName
    (withPullRequest env commits) v2 username labels
    ⟨sp, sd,
     [GitEvent.resetAndPull,
      GitEvent.checkoutBranch v1
        (getBackportBranchName v1 (withPullRequest env commits))]⟩
    hreset hv2 hcherry hpush
  have hrun : doBackportVersions env owner repoName commits username labels [v1, v2]
      ⟨sp, sd, []⟩ =
      (Except.ok [Except.error e, Except.ok env.createdPrNumber],
       ⟨sp, sd,
        [GitEvent.resetAndPull,
         GitEvent.checkoutBranch v1
           (getBackportBranchName v1 (withPullRequest env commits))] ++
        ([GitEvent.resetAndPull,
          GitEvent.checkoutBranch v2
            (getBackportBranchName v2 (withPullRequest env commits))] ++
         (withPullRequest env commits).map (fun c => GitEvent.cherrypickCall c.sha) ++
         [GitEvent.pushBranch username
            (getBackportBranchName v2 (withPullRequest env commits)),
          GitEvent.createPullRequest owner repoName
            (getPullRequestPayload v2 (withPullRequest env commits) username)] ++
         (if labels.length > 0 then
            [GitEvent.addLabels owner repoName env.createdPrNumber labels]
          else []))⟩) := by
    simp [doBackportVersions, mbind, mattempt, mpure, h1, h2, List.append_assoc]
  refine ⟨_, hrun, ?_, ?_⟩
  · by_cases hl : labels.length > 0 <;>
      simp [hl, List.countP_append, List.countP_cons, isCreatePullRequestEvent,
        countP_cherrypick_map isCreatePullRequestEvent (fun _ => rfl)]
  · by_cases hl : labels.length > 0 <;> simp [hl]

/-- C4: when a cherry-pick signals a merge conflict and the user then
declines to continue, the task fails with the "Aborted" domain error
and no push, pull-request-creation or label call is issued for that
task. -/
theorem doBackportVersion_abort_no_pull_request (env : GitEnv)
    (owner repoName : String) (pre post : List Commit) (c : Commit)
    (version username : String) (labels : List String) (s : RunState)
    (e : JsError) (ptail : List Bool)
    (hreset : env.resetResult = none)
    (hcheckout : env.checkoutResult version = none)
    (hpre : ∀ x ∈ pre, env.cherrypickResult x.sha = none)
    (hc : env.cherrypickResult c.sha = some e)
    (hconf : isCherrypickConflict e = true)
    (hprompts : s.promptAnswers = false :: ptail)
    (hev : s.events = []) :
    ∃ sf : RunState,
      doBackportVersion env owner repoName (pre ++ c :: post) version username labels s =
        (Except.error abortedError, sf)
      ∧ abortedError.message = "Aborted"
      ∧ List.countP isCreatePullRequestEvent sf.events = 0
      ∧ List.countP isAddLabelsEvent sf.events = 0
      ∧ List.countP isPushEvent sf.events = 0 := by
  have habort := doBackportVersion_conflict_abort env owner repoName pre post c
    version username labels s e ptail hreset hcheckout hpre hc hconf hprompts
  refine ⟨_, habort, rfl, ?_, ?_, ?_⟩ <;>
    simp [hev, List.countP_append, List.countP_cons, isCreatePullRequestEvent,
      isAddLabelsEvent, isPushEvent,
      countP_cherrypick_map isCreatePullRequestEvent (fun _ => rfl),
      countP_cherrypick_map isAddLabelsEvent (fun _ => rfl),
      countP_cherrypick_map isPushEvent (fun _ => rfl)]

/-- C5: when a cherry-pick signals a merge conflict, followed by N
confirmations after which the index is still dirty and one
confirmation after which it is clean, the conflict loop prompts
exactly N+1 times, the task resumes and completes normally, issuing
exactly one pull-request-creation call and exactly one add-labels
call (labels being configured). -/
theorem doBackportVersion_conflict_retry_completes (env : GitEnv)
    (owner repoName : String) (pre post : List Commit) (c : Commit)
    (version username : String) (labels : List String) (s : RunState)
    (e : JsError) (N : Nat) (ptail dtail : List Bool)
    (hreset : env.resetResult = none)
    (hcheckout : env.checkoutResult version = none)
    (hpre : ∀ x ∈ pre, env.cherrypickResult x.sha = none)
    (hc : env.cherrypickResult c.sha = some e)
    (hconf : isCherrypickConflict e = true)
    (hpost : ∀ x ∈ post, env.cherrypickResult x.sha = none)
    (hpush : env.pushResult = none)
    (hlabels : labels.length > 0)
    (hprompts : s.promptAnswers = List.replicate (N + 1) true ++ ptail)
    (hdirty : s.dirtyAnswers = List.replicate N true ++ false :: dtail)
    (hev : s.events = []) :
    ∃ sf : RunState,
      doBackportVersion env owner repoName (pre ++ c :: post) version username labels s =
        (Except.ok env.createdPrNumber, sf)
      ∧ List.countP isPromptEvent sf.events = N + 1
      ∧ List.countP isCreatePullRequestEvent sf.events = 1
      ∧ List.countP isAddLabelsEvent sf.events = 1 := by
  have hrun := doBackportVersion_conflict_resolved env owner repoName pre post c
    version username labels s e N ptail dtail hreset hcheckout hpre hc hconf
    hpost hpush hprompts hdirty
  refine ⟨_, hrun, ?_, ?_, ?_⟩ <;>
    simp [hev, hlabels, List.countP_append, List.countP_cons, isCreatePullRequestEvent,
      isAddLabelsEvent, isPushEvent, isPromptEvent,
      countP_cherrypick_map isCreatePullRequestEvent (fun _ => rfl),
      countP_cherrypick_map isAddLabelsEvent (fun _ => rfl),
      countP_cherrypick_map isPromptEvent (fun _ => rfl),
      countP_replicate_zero isCreatePullRequestEvent GitEvent.promptConfirm _ rfl,
      countP_replicate_zero isAddLabelsEvent GitEvent.promptConfirm _ rfl,
      countP_replicate_one isPromptEvent GitEvent.promptConfirm _ rfl]

/-- C6: every pull-request payload created by a task has head
`<username>:<backport-branch-name>` (the username owning the remote
the branch was pushed to) and base the literal target branch name;
and the remote owner resolution yields the caller's username when
working against a fork and the upstream repository owner otherwise. -/
theorem createdPullRequest_head_base (env : GitEnv) (owner repoName : String)
    (commits : List Commit) (version username : String) (labels : List String)
    (s : RunState)
    (hreset : env.resetResult = none)
    (hcheckout : env.checkoutResult version = none)
    (hcherry : ∀ c ∈ commits, env.cherrypickResult c.sha = none)
    (hpush : env.pushResult = none)
    (hev : s.events = []) :
    ∃ sf : RunState,
      doBackportVersion env owner repoName commits version username labels s =
        (Except.ok env.createdPrNumber, sf)
      ∧ (∀ o r p, GitEvent.createPullRequest o r p ∈ sf.events →
          p.head = username ++ ":" ++ getBackportBranchName version commits
          ∧ p.base = version)
      ∧ List.countP isCreatePullRequestEvent sf.events = 1
      ∧ (∀ options : BackportOptions,
          (options.fork = true → getRemoteName options = options.username)
          ∧ (options.fork = false → getRemoteName options = options.repoOwner)) := by
  have hrun := doBackportVersion_ok env owner repoName commits version username
    labels s hreset hcheckout hcherry hpush
  refine ⟨_, hrun, ?_, ?_, ?_⟩
  · intro o r p hmem
    by_cases hl : labels.length > 0 <;> simp [hev, hl] at hmem <;>
      · obtain ⟨-, -, hp⟩ := hmem
        subst hp
        exact ⟨rfl, rfl⟩
  · by_cases hl : labels.length > 0 <;>
      simp [hev, hl, List.countP_append, List.countP_cons, isCreatePullRequestEvent,
        countP_cherrypick_map isCreatePullRequestEvent (fun _ => rfl)]
  · intro options
    constructor
    · intro hf
      simp [getRemoteName, hf]
    · intro hf
      simp [getRemoteName, hf]

/-- C10: if cloning fails partway through initial setup, the
partially-created local clone directory is deleted before the error
is propagated (regardless of whether the failed clone left files
behind), so a later run's existence check finds no repository and
attempts the clone again rather than mistaking the leftovers for a
complete clone. -/
theorem maybeSetupRepo_failed_clone_cleanup (env : SetupEnv)
    (username repoOwner : String) (s : SetupState) (e : ExecError)
    (hnotcloned : s.repoOnDisk = false)
    (hmk : env.makeDirResult = none)
    (hclone : env.cloneResult = some e)
    (hev : s.events = []) :
    maybeSetupRepo env username repoOwner s =
      (Except.error e,
       ⟨false, [SetupEvent.makeDirCall, SetupEvent.cloneRepoCall,
                SetupEvent.deleteRepoCall]⟩)
    ∧ (∀ env2 : SetupEnv,
        env2.makeDirResult = none →
        env2.cloneResult = none →
        env2.deleteRemoteResult = (fun _ => none) →
        ∃ sf2 : SetupState,
          maybeSetupRepo env2 username repoOwner ⟨false, []⟩ = (Except.ok (), sf2)
          ∧ SetupEvent.cloneRepoCall ∈ sf2.events
          ∧ sf2.repoOnDisk = true) := by
  obtain ⟨sod, sev⟩ := s
  have h1 : sod = false := hnotcloned
  have h2 : sev = [] := hev
  subst h1 h2
  constructor
  · simp [maybeSetupRepo, mbind, mcatch, mthrow, mpure, repoExists, makeDirOp,
      cloneRepoOp, deleteRepoOp, hmk, hclone]
  · intro env2 hmk2 hclone2 hdel2
    by_cases hu : username = repoOwner
    · refine ⟨⟨true, [SetupEvent.makeDirCall, SetupEvent.cloneRepoCall,
          SetupEvent.deleteRemoteCall "origin", SetupEvent.deleteRemoteCall username,
          SetupEvent.addRemoteCall username]⟩, ?_, ?_, ?_⟩ <;>
        simp [maybeSetupRepo, mbind, mcatch, mthrow, mpure, repoExists, makeDirOp,
          cloneRepoOp, deleteRepoOp, deleteRemoteOp, addRemoteOp, hmk2, hclone2,
          hdel2, hu]
    · refine ⟨⟨true, [SetupEvent.makeDirCall, SetupEvent.cloneRepoCall,
          SetupEvent.deleteRemoteCall "origin", SetupEvent.deleteRemoteCall username,
          SetupEvent.addRemoteCall username, SetupEvent.deleteRemoteCall repoOwner,
          SetupEvent.addRemoteCall repoOwner]⟩, ?_, ?_, ?_⟩ <;>
        simp [maybeSetupRepo, mbind, mcatch, mthrow, mpure, repoExists, makeDirOp,
          cloneRepoOp, deleteRepoOp, deleteRemoteOp, addRemoteOp, hmk2, hclone2,
          hdel2, hu]

theorem doBackportVersions_partial_failure_witness :
    ∃ sf : RunState,
      doBackportVersions failFirstEnv "elastic" "kibana"
          [⟨"mySha", "myCommitMessage (#1000)", none⟩] "sqren" [] ["5.x", "6.x"]
          ⟨[], [], []⟩ =
        (Except.ok
          [Except.error ⟨"Command failed", "git reset --hard && git clean -d --force"⟩,
           Except.ok 1337], sf)
      ∧ List.countP isCreatePullRequestEvent sf.events = 1
      ∧ GitEvent.createPullRequest "elastic" "kibana"
          (getPullRequestPayload "6.x"
            (withPullRequest failFirstEnv [⟨"mySha", "myCommitMessage (#1000)", none⟩])
            "sqren") ∈ sf.events :=
  doBackportVersions_partial_failure failFirstEnv "elastic" "kibana"
    [⟨"mySha", "myCommitMessage (#1000)", none⟩] "sqren" [] "5.x" "6.x"
    ⟨"Command failed", "git reset --hard && git clean -d --force"⟩ ⟨[], [], []⟩
    rfl (by decide) (by decide) (by decide) rfl rfl

theorem doBackportVersion_abort_no_pull_request_witness :
    ∃ sf : RunState,
      doBackportVersion conflictEnv "elastic" "kibana"
          ([] ++ (⟨"mySha", "myCommitMessage", none⟩ : Commit) :: []) "6.x" "sqren"
          ["backport"] ⟨[false], [], []⟩ =
        (Except.error abortedError, sf)
      ∧ abortedError.message = "Aborted"
      ∧ List.countP isCreatePullRequestEvent sf.events = 0
      ∧ List.countP isAddLabelsEvent sf.events = 0
      ∧ List.countP isPushEvent sf.events = 0 :=
  doBackportVersion_abort_no_pull_request conflictEnv "elastic" "kibana" [] []
    ⟨"mySha", "myCommitMessage", none⟩ "6.x" "sqren" ["backport"] ⟨[false], [], []⟩
    ⟨"as", "git fetch elastic master:master --force && git cherry-pick mySha"⟩ []
    rfl rfl (by decide) (by decide) (by decide) rfl rfl

theorem doBackportVersion_conflict_retry_completes_witness :
    ∃ sf : RunState,
      doBackportVersion conflictEnv "elastic" "kibana"
          ([] ++ (⟨"mySha", "myCommitMessage", none⟩ : Commit) :: []) "6.x" "sqren"
          ["backport"] ⟨[true, true], [true, false], []⟩ =
        (Except.ok 1337, sf)
      ∧ List.countP isPromptEvent sf.events = 1 + 1
      ∧ List.countP isCreatePullRequestEvent sf.events = 1
      ∧ List.countP isAddLabelsEvent sf.events = 1 :=
  doBackportVersion_conflict_retry_completes conflictEnv "elastic" "kibana" [] []
    ⟨"mySha", "myCommitMessage", none⟩ "6.x" "sqren" ["backport"]
    ⟨[true, true], [true, false], []⟩
    ⟨"as", "git fetch elastic master:master --force && git cherry-pick mySha"⟩ 1 [] []
    rfl rfl (by decide) (by decide) (by decide) (by decide) rfl (by decide)
    (by decide) (by decide) rfl

theorem createdPullRequest_head_base_witness :
    ∃ sf : RunState,
      doBackportVersion allOkEnv "elastic" "kibana"
          [⟨"mySha", "myCommitMessage (#1000)", some 1000⟩] "6.x" "sqren" ["backport"]
          ⟨[], [], []⟩ =
        (Except.ok 1337, sf)
      ∧ (∀ o r p, GitEvent.createPullRequest o r p ∈ sf.events →
          p.head = "sqren" ++ ":" ++
            getBackportBranchName "6.x" [⟨"mySha", "myCommitMessage (#1000)", some 1000⟩]
          ∧ p.base = "6.x")
      ∧ List.countP isCreatePullRequestEvent sf.events = 1
      ∧ (∀ options : BackportOptions,
          (options.fork = true → getRemoteName options = options.username)
          ∧ (options.fork = false → getRemoteName options = options.repoOwner)) :=
  createdPullRequest_head_base allOkEnv "elastic" "kibana"
    [⟨"mySha", "myCommitMessage (#1000)", some 1000⟩] "6.x" "sqren" ["backport"]
    ⟨[], [], []⟩ rfl rfl (by decide) rfl rfl

theorem maybeSetupRepo_failed_clone_cleanup_witness :
    maybeSetupRepo cloneFailEnv "sqren" "elastic" ⟨false, []⟩ =
      (Except.error ⟨"git clone --progress", 128, some "fatal: unable to access"⟩,
       ⟨false, [SetupEvent.makeDirCall, SetupEvent.cloneRepoCall,
                SetupEvent.deleteRepoCall]⟩)
    ∧ (∀ env2 : SetupEnv,
        env2.makeDirResult = none →
        env2.cloneResult = none →
        env2.deleteRemoteResult = (fun _ => none) →
        ∃ sf2 : SetupState,
          maybeSetupRepo env2 "sqren" "elastic" ⟨false, []⟩ = (Except.ok (), sf2)
          ∧ SetupEvent.cloneRepoCall ∈ sf2.events
          ∧ sf2.repoOnDisk = true) :=
  maybeSetupRepo_failed_clone_cleanup cloneFailEnv "sqren" "elastic" ⟨false, []⟩
    ⟨"git clone --progress", 128, some "fatal: unable to access"⟩ rfl rfl rfl rfl

/-- C7: for the single commit {sha "mySha", message
"myCommitMessage (#1000)", pull request 1000} targeting "6.x", the
branch name and title come out as the claim states, but the body does
not: `message.replace("(#1000)", "")` leaves the space that preceded
the stripped token, so the produced line is
` - myCommitMessage  (#1000)` (two spaces), not
` - myCommitMessage (#1000)` as the claim (and the repository's own
test for this scenario) states. -/
theorem examplePayload_body_divergence :
    getBackportBranchName "6.x" [⟨"mySha", "myCommitMessage (#1000)", some 1000⟩] =
      "backport/6.x/pr-1000"
    ∧ (getPullRequestPayload "6.x"
        [⟨"mySha", "myCommitMessage (#1000)", some 1000⟩] "sqren").title =
      "[6.x] myCommitMessage (#1000)"
    ∧ (getPullRequestPayload "6.x"
        [⟨"mySha", "myCommitMessage (#1000)", some 1000⟩] "sqren").body =
      "Backports the following commits to 6.x:\n - myCommitMessage  (#1000)"
    ∧ (getPullRequestPayload "6.x"
        [⟨"mySha", "myCommitMessage (#1000)", some 1000⟩] "sqren").body ≠
      "Backports the following commits to 6.x:\n - myCommitMessage (#1000)" := by
  refine ⟨by decide, by decide, by decide, by decide⟩
